import Mathlib

/-!
Verification of the kivra-sync fetch/dedup pipeline and authentication flow.

Shallow embedding of the core modules of the kivra-sync repository:

* `src/kivra/receipts.py` (`ReceiptFetcher`)
* `src/kivra/letters.py`  (`LetterFetcher`)
* `src/kivra/auth.py`     (`KivraAuth`)
* `src/utils/helpers.py`  (`format_date`)
* `src/kivra/models.py`   (`KivraReceipt.get_metadata`, `KivraLetter.get_metadata`)

External collaborators (the Kivra HTTP API and the pluggable document store)
are modelled as environments of functions supplying the values / failures the
Python code observes at each call site.  Python exceptions are modelled with
`Except String`; `None`-able values with `Option`; the side effects performed
by a run are collected in an explicit event trace (`Ev`).  The Python integer
counter that can become `None` (see `_process_receipt` returning bare `return`)
is modelled as `Option Nat`.
-/

namespace KivraSync

/-- Python truthiness of an optional string: `None` and `""` are falsy. -/
def falsy : Option String → Bool
  | none => true
  | some s => s = ""

/-- `d.get('key')` followed by the `if not key` guard: yields the key only
when it is present and non-empty. -/
def pyKey : Option String → Option String
  | none => none
  | some s => if s = "" then none else some s

/-- `utils/helpers.py`, `format_date`:
`iso_date.split('T')[0] if iso_date else 'unknown_date'`.
`split('T')[0]` is the prefix before the first `'T'` (the whole string
when there is none).  The argument models `d.get(field, 'unknown_date')`
collapsed with the falsy check: an absent or null or empty field yields
`"unknown_date"`. -/
def format_date : Option String → String
  | none => "unknown_date"
  | some s =>
    if s = "" then "unknown_date"
    else String.mk (s.data.takeWhile (fun c => c ≠ 'T'))

/-- The dedup fingerprint dictionary produced by
`KivraReceipt.get_metadata` / `KivraLetter.get_metadata` in
`src/kivra/models.py`: `type`, `date`, store/sender name, `key`,
`content_type`, and (letters only) the optional `part_index`. -/
structure Metadata where
  docType : String
  date : String
  name : String
  key : String
  contentType : String
  partIndex : Option Nat
deriving DecidableEq, Repr

/-- `KivraReceipt(key, date, store).get_metadata(content_type)`. -/
def receiptMeta (key date store ct : String) : Metadata :=
  ⟨"receipt", date, store, key, ct, none⟩

/-- `KivraLetter(key, date, sender, part_index).get_metadata(content_type)`. -/
def letterMeta (key date sender ct : String) (partIndex : Option Nat) : Metadata :=
  ⟨"letter", date, sender, key, ct, partIndex⟩

/-- A payload handed to `document_store.store`: letter text bodies are
Python strings that may be `None` (`part.get('body')`), PDFs are byte
strings. -/
inductive Content where
  | text (body : Option String)
  | bytes (b : List Nat)
deriving DecidableEq, Repr

/-- One observable side effect of a fetch run, in program order. -/
inductive Ev where
  /-- a listing query (`Receipts` GraphQL call, resp. one `ContentList` page) -/
  | listReq
  /-- `document_store.report_listing(kind, …)` -/
  | reportListing (kind : String)
  /-- `document_store.exists(metadata)` -/
  | existsCheck (m : Metadata)
  /-- detail fetch (`ReceiptDetails` query resp. `get_content_details`) -/
  | detailFetch (key : String)
  /-- `document_store.report_metadata(data, metadata)` -/
  | reportMetadata (m : Metadata)
  /-- `api_client.get_pdf(url)` (receipts) -/
  | pdfFetch (url : String)
  /-- `api_client.get_content_file(content_key, file_key)` (letter pdf parts) -/
  | fileFetch (contentKey fileKey : String)
  /-- `document_store.store(content, metadata)` -/
  | storeCall (c : Content) (m : Metadata)
deriving DecidableEq, Repr

/-- The pluggable document store (`storage/base.py` interface), as the fetcher
observes it: `exists` returns a boolean (the code calls it outside any
handler), the other three may raise (`Except.error`) or return. -/
structure Store where
  existsFn : Metadata → Bool
  reportListing : String → Except String Unit
  reportMetadata : Metadata → Except String Bool
  storeFn : Content → Metadata → Except String Bool

/-- `if max_count is not None: lst = lst[:max_count]` — truncation of a
listing to the optional `max_count` (CLI values are non-negative). -/
def truncate (maxCount : Option Nat) (l : List α) : List α :=
  match maxCount with
  | some n => l.take n
  | none => l

/-- `receipts_stored += 1` on an `Option Nat` counter: when the counter is
`None` the Python statement raises `TypeError`, which the enclosing per-item
`except` swallows, leaving the counter `None`.  (In both fetchers the
increment is the last statement of the per-item `try` block, so nothing
after it is skipped.) -/
def incr : Option Nat → Option Nat
  | some n => some (n + 1)
  | none => none

/-! ## Receipts (`src/kivra/receipts.py`) -/

/-- One entry of `receiptsV2.list` as `_process_receipt` reads it:
`key`, `purchaseDate`, and `store.name` (each possibly absent/null). -/
structure ReceiptData where
  key : Option String
  purchaseDate : Option String
  storeName : Option String
deriving DecidableEq, Repr

/-- The `receiptsV2` object of the `Receipts` query response: the item
list and the server-reported `total` field (`receipts.get('total', 0)`). -/
structure ReceiptsPage where
  list : List ReceiptData
  total : Option Nat
deriving DecidableEq, Repr

/-- The Kivra API as `ReceiptFetcher` uses it: the listing query result,
the `ReceiptDetails` query (payload opaque — the fetcher only forwards it
to `report_metadata`), and `get_pdf`. -/
structure ReceiptApi where
  listResult : Except String ReceiptsPage
  detail : String → Except String Unit
  getPdf : String → Except String (List Nat)
  actorKey : String

/-- The receipt PDF URL built in `_fetch_and_store_pdf`. -/
def pdfUrl (actorKey key : String) : String :=
  "https://app.api.kivra.com/v1/user/" ++ actorKey ++ "/receipts/" ++ key

/-- The JSON dedup fingerprint `_process_receipt` derives from a listing
entry (given its non-falsy key). -/
def receiptJsonMeta (rd : ReceiptData) (key : String) : Metadata :=
  receiptMeta key (format_date rd.purchaseDate)
    (rd.storeName.getD "unknown_store") "application/json"

/-- `ReceiptFetcher._process_receipt` (with `_fetch_and_store_pdf` inlined):
returns the events performed and the updated `receipts_stored` counter.
A missing/empty key returns bare `return` in Python, i.e. `None`.
All failures inside the `try` are logged and swallowed (the counter is
returned unchanged); `_fetch_and_store_pdf` re-raises into that handler. -/
def process_receipt (api : ReceiptApi) (store : Store) (rd : ReceiptData)
    (stored : Option Nat) : List Ev × Option Nat :=
  match pyKey rd.key with
  | none => ([], none)
  | some key =>
    let date := format_date rd.purchaseDate
    let name := rd.storeName.getD "unknown_store"
    let jm := receiptMeta key date name "application/json"
    if store.existsFn jm then ([.existsCheck jm], stored)
    else
      match api.detail key with
      | .error _ => ([.existsCheck jm, .detailFetch key], stored)
      | .ok _ =>
        match store.reportMetadata jm with
        | .error _ => ([.existsCheck jm, .detailFetch key, .reportMetadata jm], stored)
        | .ok _ =>
          let url := pdfUrl api.actorKey key
          match api.getPdf url with
          | .error _ =>
            ([.existsCheck jm, .detailFetch key, .reportMetadata jm, .pdfFetch url], stored)
          | .ok content =>
            let pm := receiptMeta key date name "application/pdf"
            match store.storeFn (.bytes content) pm with
            | .error _ =>
              ([.existsCheck jm, .detailFetch key, .reportMetadata jm, .pdfFetch url,
                .storeCall (.bytes content) pm], stored)
            | .ok b =>
              ([.existsCheck jm, .detailFetch key, .reportMetadata jm, .pdfFetch url,
                .storeCall (.bytes content) pm],
               if b then incr stored else stored)

/-- The `for receipt_data in receipt_list` loop of `fetch_receipts`. -/
def processReceipts (api : ReceiptApi) (store : Store) :
    List ReceiptData → Option Nat → List Ev × Option Nat
  | [], stored => ([], stored)
  | rd :: rest, stored =>
    let (t, s) := process_receipt api store rd stored
    let (t2, s2) := processReceipts api store rest s
    (t ++ t2, s2)

/-- Run statistics returned by a fetcher (`*_total`, `*_fetched`,
`*_stored`; the stored counter may be `None`, see `incr`). -/
structure Stats where
  total : Nat
  fetched : Nat
  stored : Option Nat
deriving DecidableEq, Repr

/-- `ReceiptFetcher.fetch_receipts`: list query, `report_listing` (inside the
same `try`, whose handler logs and re-raises), truncation to `max_count`,
the per-item loop, and the statistics.  `Except.error` models the re-raised
exception aborting the run. -/
def fetch_receipts (api : ReceiptApi) (store : Store) (maxCount : Option Nat) :
    List Ev × Except String Stats :=
  match api.listResult with
  | .error e => ([.listReq], .error e)
  | .ok page =>
    let total := page.total.getD 0
    match store.reportListing "receipts" with
    | .error e => ([.listReq, .reportListing "receipts"], .error e)
    | .ok _ =>
      let receiptList := truncate maxCount page.list
      let (t, stored) := processReceipts api store receiptList (some 0)
      (.listReq :: .reportListing "receipts" :: t,
       .ok ⟨total, receiptList.length, stored⟩)

/-! ## Letters (`src/kivra/letters.py`) -/

/-- One entry of a `ContentList` page as `_process_letter` reads it:
`key`, `receivedAt`, `sender.name`. -/
structure LetterData where
  key : Option String
  receivedAt : Option String
  senderName : Option String
deriving DecidableEq, Repr

/-- The `contents` object of one `ContentList` page: item list, the
`existsMore` flag, and the server-reported `total` field (which
`fetch_letters` only prints, never stores). -/
structure LettersPage where
  list : List LetterData
  existsMore : Bool
  total : Option Nat
deriving DecidableEq, Repr

/-- One entry of `content_data['parts']` as `_process_letter_parts` reads
it: `content_type`, `body`, and (for pdf parts) the file `key`. -/
structure Part where
  contentType : Option String
  body : Option String
  key : Option String
deriving DecidableEq, Repr

/-- `get_content_details` response: the fetcher reads only `parts`
(`content_data.get('parts', [])`). -/
structure ContentData where
  parts : List Part
deriving DecidableEq, Repr

/-- The Kivra API as `LetterFetcher` uses it: one `ContentList` page per
cursor (`after`) value, `get_content_details`, and `get_content_file`. -/
structure LetterApi where
  pages : Option String → LettersPage
  contentDetails : String → Except String ContentData
  contentFile : String → String → Except String (List Nat)

/-- The pagination loop of `fetch_letters` (`while True: … break …`),
with explicit fuel standing in for the unbounded loop.  Returns the events
(one `listReq` per issued page query) and `some` accumulated listing, or
`none` when the fuel runs out (loop would not have terminated) or when
`page_letters[-1]['key']` raises (key absent — the exception aborts the
run).  The loop extends the accumulator, then breaks when `existsMore` is
false or the page is empty, else continues from the last item's key. -/
def fetchPages (api : LetterApi) : Nat → Option String → List Ev × Option (List LetterData)
  | 0, _ => ([], none)
  | fuel + 1, after =>
    let page := api.pages after
    if !page.existsMore || page.list.isEmpty then ([.listReq], some page.list)
    else
      match (page.list.getLast?).bind LetterData.key with
      | some k =>
        let (t, r) := fetchPages api fuel (some k)
        (.listReq :: t, r.map (page.list ++ ·))
      | none => ([.listReq], none)

/-- The JSON dedup fingerprint `_process_letter` derives from a listing
entry (given its non-falsy key). -/
def letterJsonMeta (ld : LetterData) (key : String) : Metadata :=
  letterMeta key (format_date ld.receivedAt)
    (ld.senderName.getD "unknown_sender") "application/json" none

/-- The body of the `for part_index, part in enumerate(parts)` loop of
`_process_letter_parts` for one part.  `pi` is `part_index if
len(parts) > 1 else None`.  Dispatch on the declared `content_type`:
`text/plain` stores `part.get('body', '')`, `text/html` stores
`part.get('body')` (no default), `application/pdf` fetches the file by its
key then stores it (a fetch failure is re-raised out of the loop; a store
exception in any branch also propagates), anything else is skipped, as is a
pdf part with a falsy file key.  Returns the events performed and the
contribution to `parts_stored`, or the propagating exception. -/
def partStep (api : LetterApi) (store : Store) (letterKey date sender : String)
    (pi : Option Nat) (p : Part) : List Ev × Except String Nat :=
  if p.contentType = some "text/plain" then
    let c := Content.text (some (p.body.getD ""))
    let m := letterMeta letterKey date sender "text/plain" pi
    match store.storeFn c m with
    | .error e => ([.storeCall c m], .error e)
    | .ok b => ([.storeCall c m], .ok (if b then 1 else 0))
  else if p.contentType = some "text/html" then
    let c := Content.text p.body
    let m := letterMeta letterKey date sender "text/html" pi
    match store.storeFn c m with
    | .error e => ([.storeCall c m], .error e)
    | .ok b => ([.storeCall c m], .ok (if b then 1 else 0))
  else if p.contentType = some "application/pdf" then
    match pyKey p.key with
    | none => ([], .ok 0)
    | some fk =>
      match api.contentFile letterKey fk with
      | .error e => ([.fileFetch letterKey fk], .error e)
      | .ok content =>
        let c := Content.bytes content
        let m := letterMeta letterKey date sender "application/pdf" pi
        match store.storeFn c m with
        | .error e => ([.fileFetch letterKey fk, .storeCall c m], .error e)
        | .ok b => ([.fileFetch letterKey fk, .storeCall c m], .ok (if b then 1 else 0))
  else ([], .ok 0)

/-- The enumeration over `partStep`: an error in one step propagates out
immediately (later parts are not touched), otherwise the stored-part
counts accumulate. -/
def partsLoop (api : LetterApi) (store : Store) (letterKey date sender : String)
    (multi : Bool) : List Part → Nat → List Ev × Except String Nat
  | [], _ => ([], .ok 0)
  | p :: rest, i =>
    match partStep api store letterKey date sender (if multi then some i else none) p with
    | (t, .error e) => (t, .error e)
    | (t, .ok n) =>
      let (t2, r) := partsLoop api store letterKey date sender multi rest (i + 1)
      (t ++ t2, r.map (n + ·))

/-- `LetterFetcher._process_letter_parts`.  (The `if not parts` early
return yields 0 stored parts, which coincides with the loop on `[]`.) -/
def process_letter_parts (api : LetterApi) (store : Store)
    (letterKey date sender : String) (content : ContentData) :
    List Ev × Except String Nat :=
  partsLoop api store letterKey date sender
    (decide (1 < content.parts.length)) content.parts 0

/-- `LetterFetcher._process_letter`: missing/empty key returns bare
`return` (`None`); the exists gate; then the `try` block — detail fetch,
`report_metadata`, part processing; any exception inside it is logged and
swallowed, returning the counter unchanged.  The counter is bumped (at most
once) iff at least one part was stored. -/
def process_letter (api : LetterApi) (store : Store) (ld : LetterData)
    (stored : Option Nat) : List Ev × Option Nat :=
  match pyKey ld.key with
  | none => ([], none)
  | some key =>
    let date := format_date ld.receivedAt
    let sender := ld.senderName.getD "unknown_sender"
    let jm := letterMeta key date sender "application/json" none
    if store.existsFn jm then ([.existsCheck jm], stored)
    else
      match api.contentDetails key with
      | .error _ => ([.existsCheck jm, .detailFetch key], stored)
      | .ok content =>
        match store.reportMetadata jm with
        | .error _ => ([.existsCheck jm, .detailFetch key, .reportMetadata jm], stored)
        | .ok _ =>
          let (pt, pr) := process_letter_parts api store key date sender content
          match pr with
          | .error _ => (.existsCheck jm :: .detailFetch key :: .reportMetadata jm :: pt, stored)
          | .ok n =>
            (.existsCheck jm :: .detailFetch key :: .reportMetadata jm :: pt,
             if 0 < n then incr stored else stored)

/-- The `for letter_data in all_letters` loop of `fetch_letters`. -/
def processLetters (api : LetterApi) (store : Store) :
    List LetterData → Option Nat → List Ev × Option Nat
  | [], stored => ([], stored)
  | ld :: rest, stored =>
    let (t, s) := process_letter api store ld stored
    let (t2, s2) := processLetters api store rest s
    (t ++ t2, s2)

/-- `LetterFetcher.fetch_letters`: paginate, `report_listing` (inside the
`try` whose handler logs and re-raises), truncate to `max_count`, process
each letter, and return the statistics.  `letters_total` is
`len(all_letters)` computed before truncation (the server's `total` field
is never used for statistics); `letters_fetched` re-slices the already
truncated list, which equals its length. -/
def fetch_letters (api : LetterApi) (store : Store) (fuel : Nat)
    (maxCount : Option Nat) : List Ev × Except String Stats :=
  match fetchPages api fuel none with
  | (t, none) => (t, .error "pagination failed")
  | (t, some allLetters) =>
    let totalLetters := allLetters.length
    match store.reportListing "letters" with
    | .error e => (t ++ [.reportListing "letters"], .error e)
    | .ok _ =>
      let truncated := truncate maxCount allLetters
      let (pt, stored) := processLetters api store truncated (some 0)
      (t ++ .reportListing "letters" :: pt,
       .ok ⟨totalLetters, truncated.length, stored⟩)

/-! ## Base64 (`base64.urlsafe_b64encode` / `base64.b64decode`)

`_generate_code_challenge` encodes with the URL-safe alphabet and strips the
`=` padding; `_poll_for_auth` decodes a JWT segment with the *standard*
alphabet `base64.b64decode` after restoring `=` padding to a multiple of 4.
Python's `b64decode(validate=False)` first discards every character that is
neither in the standard alphabet nor `=`. -/

/-- The standard base64 alphabet (used by `base64.b64decode`). -/
def b64StdChars : List Char :=
  "ABCDEFGHIJKLMNOPQRSTUVWXYZabcdefghijklmnopqrstuvwxyz0123456789+/".data

/-- The URL-safe base64 alphabet (used by `base64.urlsafe_b64encode`). -/
def b64UrlChars : List Char :=
  "ABCDEFGHIJKLMNOPQRSTUVWXYZabcdefghijklmnopqrstuvwxyz0123456789-_".data

/-- Encoding character for a sextet value under the URL-safe alphabet. -/
def urlChar (v : Nat) : Char := b64UrlChars.getD v '?'

/-- Decoding value of a character under the standard alphabet. -/
def stdVal? (c : Char) : Option Nat := b64StdChars.findIdx? (· = c)

/-- Whether a character belongs to the standard base64 alphabet. -/
def isStdB64 (c : Char) : Bool := (stdVal? c).isSome

/-- Byte list to sextet values, three bytes to four sextets, with the
short final group producing two resp. three sextets. -/
def sextets : List Nat → List Nat
  | [] => []
  | [b0] => [b0 / 4, b0 % 4 * 16]
  | [b0, b1] => [b0 / 4, b0 % 4 * 16 + b1 / 16, b1 % 16 * 4]
  | b0 :: b1 :: b2 :: rest =>
    b0 / 4 :: (b0 % 4 * 16 + b1 / 16) :: (b1 % 16 * 4 + b2 / 64) :: b2 % 64 :: sextets rest

/-- Number of `=` padding characters base64 appends for a byte count. -/
def b64PadLen (n : Nat) : Nat :=
  match n % 3 with
  | 1 => 2
  | 2 => 1
  | _ => 0

/-- `base64.urlsafe_b64encode` on a byte list, as characters. -/
def pyUrlsafeB64encode (bs : List Nat) : List Char :=
  (sextets bs).map urlChar ++ List.replicate (b64PadLen bs.length) '='

/-- Python `str.rstrip('=')`. -/
def rstripEq (s : List Char) : List Char :=
  ((s.reverse).dropWhile (· = '=')).reverse

/-- The padding restoration of `_poll_for_auth`:
`segment + '=' * (4 - len(segment) % 4)` (note: a segment length divisible
by 4 gains four `=`, which `b64decode` tolerates). -/
def restorePad (s : List Char) : List Char :=
  s ++ List.replicate (4 - s.length % 4) '='

/-- Look up each character's standard-alphabet value; `none` on the first
character outside the alphabet. -/
def charVals : List Char → Option (List Nat)
  | [] => some []
  | c :: cs =>
    match stdVal? c with
    | none => none
    | some v => (charVals cs).map (v :: ·)

/-- Sextet values back to bytes, four sextets to three bytes; a short final
group of two or three values is accepted only when padding was present; a
final group of one is an error. -/
def decodeSextets : List Nat → Bool → Option (List Nat)
  | [], _ => some []
  | [_], _ => none
  | [v0, v1], pad => if pad then some [v0 * 4 + v1 / 16] else none
  | [v0, v1, v2], pad =>
    if pad then some [v0 * 4 + v1 / 16, v1 % 16 * 16 + v2 / 4] else none
  | v0 :: v1 :: v2 :: v3 :: rest, pad =>
    (decodeSextets rest pad).map
      (fun bs => (v0 * 4 + v1 / 16) :: (v1 % 16 * 16 + v2 / 4) :: (v2 % 4 * 64 + v3) :: bs)

/-- `base64.b64decode` with default `validate=False`: characters outside
the standard alphabet and `=` are discarded first; the data characters
before the first `=` are decoded, a non-multiple-of-4 tail being accepted
exactly when some `=` padding is present.  (Faithful for inputs whose `=`
characters are trailing — true of every call site modelled here.) -/
def pyB64decode (s : List Char) : Option (List Nat) :=
  let kept := s.filter (fun c => isStdB64 c || c = '=')
  let data := kept.takeWhile (· ≠ '=')
  let hasPad := decide (data.length ≠ kept.length)
  match charVals data with
  | none => none
  | some vals => decodeSextets vals hasPad

/-! ## SHA-256 (`hashlib.sha256`) -/

/-- The SHA-256 round constants. -/
def shaK : List Nat :=
  [1116352408, 1899447441, 3049323471, 3921009573, 961987163,
   1508970993, 2453635748, 2870763221, 3624381080, 310598401,
   607225278, 1426881987, 1925078388, 2162078206, 2614888103,
   3248222580, 3835390401, 4022224774, 264347078, 604807628,
   770255983, 1249150122, 1555081692, 1996064986, 2554220882,
   2821834349, 2952996808, 3210313671, 3336571891, 3584528711,
   113926993, 338241895, 666307205, 773529912, 1294757372,
   1396182291, 1695183700, 1986661051, 2177026350, 2456956037,
   2730485921, 2820302411, 3259730800, 3345764771, 3516065817,
   3600352804, 4094571909, 275423344, 430227734, 506948616,
   659060556, 883997877, 958139571, 1322822218, 1537002063,
   1747873779, 1955562222, 2024104815, 2227730452, 2361852424,
   2428436474, 2756734187, 3204031479, 3329325298]

/-- The SHA-256 initial hash values. -/
def shaH0 : List Nat :=
  [1779033703, 3144134277, 1013904242, 2773480762,
   1359893119, 2600822924, 528734635, 1541459225]

/-- 32-bit right rotation (arguments kept below `2 ^ 32`). -/
def rotr32 (x n : Nat) : Nat := x / 2 ^ n + x % 2 ^ n * 2 ^ (32 - n)

/-- SHA-256 choice function. -/
def shaCh (e f g : Nat) : Nat := (e &&& f) ^^^ ((e ^^^ 0xffffffff) &&& g)

/-- SHA-256 majority function. -/
def shaMaj (a b c : Nat) : Nat := (a &&& b) ^^^ (a &&& c) ^^^ (b &&& c)

/-- SHA-256 big sigma 0. -/
def bSig0 (a : Nat) : Nat := rotr32 a 2 ^^^ rotr32 a 13 ^^^ rotr32 a 22

/-- SHA-256 big sigma 1. -/
def bSig1 (e : Nat) : Nat := rotr32 e 6 ^^^ rotr32 e 11 ^^^ rotr32 e 25

/-- SHA-256 small sigma 0. -/
def sSig0 (x : Nat) : Nat := rotr32 x 7 ^^^ rotr32 x 18 ^^^ x / 2 ^ 3

/-- SHA-256 small sigma 1. -/
def sSig1 (x : Nat) : Nat := rotr32 x 17 ^^^ rotr32 x 19 ^^^ x / 2 ^ 10

/-- Big-endian 32-bit words from a byte list. -/
def toWords : List Nat → List Nat
  | b0 :: b1 :: b2 :: b3 :: rest =>
    (b0 * 2 ^ 24 + b1 * 2 ^ 16 + b2 * 2 ^ 8 + b3) :: toWords rest
  | _ => []

/-- SHA-256 message padding: `0x80`, zeros, then the 64-bit big-endian
bit length, to a multiple of 64 bytes. -/
def shaPad (msg : List Nat) : List Nat :=
  let bitLen := msg.length * 8
  let zeros := (119 - msg.length % 64) % 64
  msg ++ 0x80 :: List.replicate zeros 0 ++
    [bitLen / 2 ^ 56 % 256, bitLen / 2 ^ 48 % 256, bitLen / 2 ^ 40 % 256,
     bitLen / 2 ^ 32 % 256, bitLen / 2 ^ 24 % 256, bitLen / 2 ^ 16 % 256,
     bitLen / 2 ^ 8 % 256, bitLen % 256]

/-- Split a byte list into 64-byte blocks (structural recursion on a fuel
bound so the definition reduces inside the kernel). -/
def toBlocksAux : Nat → List Nat → List (List Nat)
  | 0, _ => []
  | _, [] => []
  | fuel + 1, b :: rest => (b :: rest).take 64 :: toBlocksAux fuel ((b :: rest).drop 64)

/-- Split a byte list into 64-byte blocks. -/
def toBlocks (l : List Nat) : List (List Nat) := toBlocksAux l.length l

/-- The SHA-256 working state `a..h`. -/
structure ShaState where
  a : Nat
  b : Nat
  c : Nat
  d : Nat
  e : Nat
  f : Nat
  g : Nat
  h : Nat

/-- One SHA-256 compression round for a `(k, w)` pair. -/
def shaRound (st : ShaState) (kw : Nat × Nat) : ShaState :=
  let t1 := (st.h + bSig1 st.e + shaCh st.e st.f st.g + kw.1 + kw.2) % 2 ^ 32
  let t2 := (bSig0 st.a + shaMaj st.a st.b st.c) % 2 ^ 32
  ⟨(t1 + t2) % 2 ^ 32, st.a, st.b, st.c, (st.d + t1) % 2 ^ 32, st.e, st.f, st.g⟩

/-- Extend 16 schedule words to 64. -/
def shaSchedule (w16 : List Nat) : List Nat :=
  (List.range 48).foldl
    (fun w _ =>
      w ++ [(sSig1 (w.getD (w.length - 2) 0) + w.getD (w.length - 7) 0 +
             sSig0 (w.getD (w.length - 15) 0) + w.getD (w.length - 16) 0) % 2 ^ 32])
    w16

/-- Compress one 64-byte block into the running hash values. -/
def shaBlock (hs : List Nat) (block : List Nat) : List Nat :=
  let w := shaSchedule (toWords block)
  let st0 : ShaState :=
    ⟨hs.getD 0 0, hs.getD 1 0, hs.getD 2 0, hs.getD 3 0,
     hs.getD 4 0, hs.getD 5 0, hs.getD 6 0, hs.getD 7 0⟩
  let st := (shaK.zip w).foldl shaRound st0
  [(hs.getD 0 0 + st.a) % 2 ^ 32, (hs.getD 1 0 + st.b) % 2 ^ 32,
   (hs.getD 2 0 + st.c) % 2 ^ 32, (hs.getD 3 0 + st.d) % 2 ^ 32,
   (hs.getD 4 0 + st.e) % 2 ^ 32, (hs.getD 5 0 + st.f) % 2 ^ 32,
   (hs.getD 6 0 + st.g) % 2 ^ 32, (hs.getD 7 0 + st.h) % 2 ^ 32]

/-- `hashlib.sha256(msg).digest()` over a byte list. -/
def sha256 (msg : List Nat) : List Nat :=
  let hs := (toBlocks (shaPad msg)).foldl shaBlock shaH0
  hs.flatMap
    (fun wd => [wd / 2 ^ 24 % 256, wd / 2 ^ 16 % 256, wd / 2 ^ 8 % 256, wd % 256])

/-- UTF-8 encoding of one character (`str.encode('utf-8')`). -/
def utf8Char (c : Char) : List Nat :=
  let n := c.toNat
  if n < 0x80 then [n]
  else if n < 0x800 then [0xc0 + n / 64, 0x80 + n % 64]
  else if n < 0x10000 then [0xe0 + n / 4096, 0x80 + n / 64 % 64, 0x80 + n % 64]
  else [0xf0 + n / 262144, 0x80 + n / 4096 % 64, 0x80 + n / 64 % 64, 0x80 + n % 64]

/-- UTF-8 encoding of a string as a byte list. -/
def utf8Bytes (s : String) : List Nat := s.data.flatMap utf8Char

/-- `KivraAuth._generate_code_challenge`:
`base64.urlsafe_b64encode(hashlib.sha256(verifier.encode('utf-8')).digest())`
with trailing `=` stripped. -/
def generate_code_challenge (verifier : String) : String :=
  String.mk (rstripEq (pyUrlsafeB64encode (sha256 (utf8Bytes verifier))))

/-! ## Authentication (`src/kivra/auth.py`) -/

/-- Accumulator pass of `str.split('.')`. -/
def splitDotsAux : List Char → List Char → List (List Char)
  | [], acc => [acc.reverse]
  | c :: cs, acc =>
    if c = '.' then acc.reverse :: splitDotsAux cs []
    else splitDotsAux cs (c :: acc)

/-- Python `str.split('.')` (as used on the identity token). -/
def pySplitDot (s : String) : List String :=
  (splitDotsAux s.data []).map String.mk

/-- The `_initialize_oauth2` response fields `authenticate` reads:
`qr_code`, `next_poll_url`, `code`. -/
structure AuthData where
  qr_code : Option String
  next_poll_url : Option String
  code : Option String
deriving DecidableEq, Repr

/-- The validation in `KivraAuth.authenticate` right after
`_initialize_oauth2`: `if not qr_code or not auth_code: sys.exit(…)`.
`true` means the run aborts.  (The polling URL is read but not part of
the check.) -/
def authInitFatal (a : AuthData) : Bool :=
  falsy a.qr_code || falsy a.code

/-- One poll response (`poll_response.json()`), read via
`poll_data.get('status')`. -/
structure PollResp where
  status : Option String
deriving DecidableEq, Repr

/-- The token-exchange response: HTTP status plus the
`access_token` / `id_token` fields of its JSON body. -/
structure TokenResp where
  statusCode : Nat
  access_token : Option String
  id_token : Option String
deriving DecidableEq, Repr

/-- The JWT payload as `json.loads` returns it, restricted to the one
field the code reads (`kivra_user_id`). -/
structure JwtData where
  kivra_user_id : Option String
deriving DecidableEq, Repr

/-- Environment of `_poll_for_auth`: the i-th poll response, the
token-exchange response, and `json.loads` on the decoded JWT payload
(`none` models a raised `JSONDecodeError`). -/
structure AuthEnv where
  poll : Nat → PollResp
  tokenResp : TokenResp
  parseJson : List Nat → Option JwtData

/-- Events of the polling loop, in program order. -/
inductive AEv where
  /-- `time.sleep(5)` -/
  | sleep (units : Nat)
  /-- the i-th `GET` of the poll URL -/
  | pollReq (i : Nat)
  /-- `interaction_provider.report_authentication_success()` -/
  | notifySuccess
  /-- the token-exchange `POST` -/
  | tokenPost
deriving DecidableEq, Repr

/-- Outcome of `_poll_for_auth`. -/
inductive AuthOutcome where
  /-- the returned token info: `access_token` (unvalidated) and `actor_key` -/
  | tokens (access : Option String) (actor : String)
  /-- `sys.exit(msg)` -/
  | fatal (msg : String)
  /-- an uncaught exception (attribute error, base64 error, JSON error) -/
  | crash (msg : String)
  /-- fuel exhausted: the unbounded `while True` loop did not yet return -/
  | outOfFuel
deriving DecidableEq, Repr

/-- The body of the `status == 'complete'` branch of `_poll_for_auth`
after the success notification and the token `POST` (both already
recorded by the caller): status check, `id_token.split('.')`, padding
restoration, standard-alphabet base64 decode, JSON parse, and the
`kivra_user_id` extraction with its falsy check. -/
def completeBranch (env : AuthEnv) : AuthOutcome :=
  if env.tokenResp.statusCode ≠ 200 then .fatal "Token retrieval failed"
  else
    match env.tokenResp.id_token with
    | none => .crash "attribute error on id_token"
    | some idt =>
      let parts := pySplitDot idt
      if parts.length < 2 then .fatal "Could not parse id_token"
      else
        let seg := (parts.getD 1 "").data
        match pyB64decode (restorePad seg) with
        | none => .crash "binascii error"
        | some payload =>
          match env.parseJson payload with
          | none => .crash "json decode error"
          | some jwt =>
            match pyKey jwt.kivra_user_id with
            | none => .fatal "Missing kivra_user_id"
            | some actor => .tokens env.tokenResp.access_token actor

/-- `KivraAuth._poll_for_auth`: `while True: time.sleep(5); GET poll_url`,
dispatch on `status` — `complete` notifies the interaction provider then
`POST`s the token exchange; `pending` loops; anything else exits fatally.
`i` numbers the poll requests; fuel stands in for the unbounded loop. -/
def poll_for_auth (env : AuthEnv) : Nat → Nat → List AEv × AuthOutcome
  | 0, _ => ([], .outOfFuel)
  | fuel + 1, i =>
    let r := env.poll i
    if r.status = some "complete" then
      ([.sleep 5, .pollReq i, .notifySuccess, .tokenPost], completeBranch env)
    else if r.status = some "pending" then
      let (t, o) := poll_for_auth env fuel (i + 1)
      (.sleep 5 :: .pollReq i :: t, o)
    else ([.sleep 5, .pollReq i], .fatal "BankID authentication failed")

/-! ## Auxiliary predicates and concrete fixtures -/

/-- Whether an event is a `document_store.exists` check. -/
def isExistsEv : Ev → Bool
  | .existsCheck _ => true
  | _ => false

/-- Whether an event is a `document_store.store` call. -/
def isStoreEv : Ev → Bool
  | .storeCall _ _ => true
  | _ => false

/-- Whether an event is a detail fetch. -/
def isDetailEv : Ev → Bool
  | .detailFetch _ => true
  | _ => false

/-- Whether an event is a `report_metadata` call. -/
def isReportMetaEv : Ev → Bool
  | .reportMetadata _ => true
  | _ => false

/-- Whether an auth event is the success notification. -/
def isNotify : AEv → Bool
  | .notifySuccess => true
  | _ => false

/-- Whether an auth event is the token-exchange `POST`. -/
def isTokenPost : AEv → Bool
  | .tokenPost => true
  | _ => false

/-- Whether an auth event is a poll request. -/
def isPollReq : AEv → Bool
  | .pollReq _ => true
  | _ => false

/-- The `sleep`/`poll` event pattern of `k` consecutive poll iterations
starting at request index `i`. -/
def pollPrefixFrom : Nat → Nat → List AEv
  | _, 0 => []
  | i, k + 1 => .sleep 5 :: .pollReq i :: pollPrefixFrom (i + 1) k

/-- The cursor pagination protocol of the claim: the server serves the
given pages in order from the given cursor, setting `existsMore` on all
but the last page, every non-last page being non-empty and carrying the
next cursor (the last item's `key`). -/
def Serves (api : LetterApi) : Option String → List (List LetterData) → Prop
  | _, [] => False
  | c, [p] => (api.pages c).list = p ∧ (api.pages c).existsMore = false
  | c, p :: q :: rest =>
    (api.pages c).list = p ∧ (api.pages c).existsMore = true ∧ p ≠ [] ∧
    ∃ k, (p.getLast?).bind LetterData.key = some k ∧ Serves api (some k) (q :: rest)

/-- A document store on which every call succeeds and nothing exists yet. -/
def okStore : Store :=
  ⟨fun _ => false, fun _ => .ok (), fun _ => .ok true, fun _ _ => .ok true⟩

/-- A document store that reports every fingerprint as already present. -/
def allTrueStore : Store :=
  ⟨fun _ => true, fun _ => .ok (), fun _ => .ok true, fun _ _ => .ok true⟩

/-- A document store whose `report_listing` raises. -/
def failListStore : Store :=
  ⟨fun _ => false, fun _ => .error "disk full", fun _ => .ok true, fun _ _ => .ok true⟩

/-- A one-receipt listing fixture. -/
def rApi1 : ReceiptApi :=
  ⟨.ok ⟨[⟨some "R1", some "2024-01-01T00:00:00", some "Shop"⟩], some 1⟩,
   fun _ => .ok (), fun _ => .ok [1, 2], "ACTOR"⟩

/-- A letters fixture: a single unpaginated page whose server `total`
field (5) disagrees with the number of items it actually lists (1). -/
def lApi1 : LetterApi :=
  ⟨fun _ => ⟨[⟨some "L1", some "2024-03-03T09:00:00", some "Gov"⟩], false, some 5⟩,
   fun _ => .ok ⟨[]⟩, fun _ _ => .ok []⟩

/-- The four-part letter detail of the part-dispatch scenario. -/
def parts4 : List Part :=
  [⟨some "text/plain", some "hello", none⟩,
   ⟨some "application/pdf", none, some "F1"⟩,
   ⟨some "text/html", some "<p>x</p>", none⟩,
   ⟨some "application/x-unknown", some "?", none⟩]

/-- A letters fixture serving the four-part detail. -/
def lApi4 : LetterApi :=
  ⟨fun _ => ⟨[⟨some "L4", some "2024-05-05T08:00:00", some "ACME"⟩], false, some 1⟩,
   fun _ => .ok ⟨parts4⟩, fun _ _ => .ok [37, 80]⟩

/-- A letters fixture whose `get_content_file` always raises (pdf part
fetches fail). -/
def lApiPdfFail : LetterApi :=
  ⟨fun _ => ⟨[⟨some "L6", some "2024-07-07T08:00:00", some "Bank"⟩], false, some 1⟩,
   fun _ => .ok ⟨[⟨some "text/plain", some "body", none⟩,
                 ⟨some "application/pdf", none, some "F9"⟩,
                 ⟨some "text/plain", some "after", none⟩]⟩,
   fun _ _ => .error "http 500"⟩

/-- A two-page cursor-paginated letters fixture: the first page (cursor
`None`) lists two items and signals more, the second page (cursor `"K2"`,
the first page's last key) lists one item and is final. -/
def lApiPaged : LetterApi :=
  ⟨fun c =>
    match c with
    | none => ⟨[⟨some "K1", some "2024-01-01T04:00:00", some "A"⟩,
                ⟨some "K2", some "2024-01-02T04:00:00", some "B"⟩], true, some 3⟩
    | some "K2" => ⟨[⟨some "K3", some "2024-01-03T04:00:00", some "C"⟩], false, some 3⟩
    | some _ => ⟨[], false, none⟩,
   fun _ => .ok ⟨[]⟩, fun _ _ => .ok []⟩

/-- A letters fixture whose detail has a single unknown-typed part. -/
def lApiUnknown : LetterApi :=
  ⟨fun _ => ⟨[⟨some "L5", some "2024-06-06T08:00:00", some "ACME"⟩], false, some 1⟩,
   fun _ => .ok ⟨[⟨some "application/x-unknown", some "?", none⟩]⟩, fun _ _ => .ok []⟩

/-- A poll environment answering `pending` three times, then `complete`. -/
def authEnv1 : AuthEnv :=
  ⟨fun i => if i < 3 then ⟨some "pending"⟩ else ⟨some "complete"⟩,
   ⟨200, some "AT", some "h.eyJh.sig"⟩, fun _ => some ⟨some "UID"⟩⟩

/-! ## Shared lemmas -/

/-- Splitting the per-receipt loop across a listing concatenation. -/
theorem processReceipts_append (api : ReceiptApi) (store : Store)
    (l1 l2 : List ReceiptData) (s : Option Nat) :
    processReceipts api store (l1 ++ l2) s =
      ((processReceipts api store l1 s).1 ++
        (processReceipts api store l2 (processReceipts api store l1 s).2).1,
       (processReceipts api store l2 (processReceipts api store l1 s).2).2) := by
  induction l1 generalizing s with
  | nil => simp [processReceipts]
  | cons rd rest ih =>
    simp only [List.cons_append, processReceipts]
    rcases process_receipt api store rd s with ⟨t, s1⟩
    simp only [List.append_eq, ih, List.append_assoc]

/-- Splitting the per-letter loop across a listing concatenation. -/
theorem processLetters_append (api : LetterApi) (store : Store)
    (l1 l2 : List LetterData) (s : Option Nat) :
    processLetters api store (l1 ++ l2) s =
      ((processLetters api store l1 s).1 ++
        (processLetters api store l2 (processLetters api store l1 s).2).1,
       (processLetters api store l2 (processLetters api store l1 s).2).2) := by
  induction l1 generalizing s with
  | nil => simp [processLetters]
  | cons ld rest ih =>
    simp only [List.cons_append, processLetters]
    rcases process_letter api store ld s with ⟨t, s1⟩
    simp only [List.append_eq, ih, List.append_assoc]

/-- A `None` counter survives one receipt unchanged (every branch returns
the incoming counter or `incr` of it, and `incr none = none`). -/
theorem process_receipt_stored_none (api : ReceiptApi) (store : Store) (rd : ReceiptData) :
    (process_receipt api store rd none).2 = none := by
  simp only [process_receipt]
  rcases pyKey rd.key with _ | key
  · rfl
  · simp only
    split
    · rfl
    · rcases api.detail key with e | u
      · rfl
      · simp only
        rcases store.reportMetadata _ with e | b
        · rfl
        · simp only
          rcases api.getPdf _ with e | c
          · rfl
          · simp only
            rcases store.storeFn _ _ with e | b
            · rfl
            · simp only
              split <;> rfl

/-- A `None` counter survives one letter unchanged. -/
theorem process_letter_stored_none (api : LetterApi) (store : Store) (ld : LetterData) :
    (process_letter api store ld none).2 = none := by
  simp only [process_letter]
  rcases pyKey ld.key with _ | key
  · rfl
  · simp only
    split
    · rfl
    · rcases api.contentDetails key with e | content
      · rfl
      · simp only
        rcases store.reportMetadata _ with e | b
        · rfl
        · simp only
          rcases process_letter_parts api store key _ _ content with ⟨pt, pr⟩
          rcases pr with e | n
          · rfl
          · simp only
            split <;> rfl

/-- Once the receipts counter is `None` it stays `None` to the end of the
run. -/
theorem processReceipts_stored_none (api : ReceiptApi) (store : Store)
    (l : List ReceiptData) : (processReceipts api store l none).2 = none := by
  induction l with
  | nil => rfl
  | cons rd rest ih =>
    simp only [processReceipts]
    have h := process_receipt_stored_none api store rd
    rcases hpr : process_receipt api store rd none with ⟨t, s⟩
    rw [hpr] at h
    simp only at h
    subst h
    simpa using ih

/-- Once the letters counter is `None` it stays `None` to the end of the
run. -/
theorem processLetters_stored_none (api : LetterApi) (store : Store)
    (l : List LetterData) : (processLetters api store l none).2 = none := by
  induction l with
  | nil => rfl
  | cons ld rest ih =>
    simp only [processLetters]
    have h := process_letter_stored_none api store ld
    rcases hpr : process_letter api store ld none with ⟨t, s⟩
    rw [hpr] at h
    simp only at h
    subst h
    simpa using ih

/-- When the fingerprint already exists, `_process_receipt` performs only
the existence check and returns the counter unchanged. -/
theorem process_receipt_skip (api : ReceiptApi) (store : Store) (rd : ReceiptData)
    (stored : Option Nat) (key : String) (hk : pyKey rd.key = some key)
    (he : store.existsFn (receiptJsonMeta rd key) = true) :
    process_receipt api store rd stored = ([.existsCheck (receiptJsonMeta rd key)], stored) := by
  simp only [receiptJsonMeta] at he
  simp only [process_receipt, hk, he, if_true]
  rfl

/-- When the fingerprint already exists, `_process_letter` performs only
the existence check and returns the counter unchanged. -/
theorem process_letter_skip (api : LetterApi) (store : Store) (ld : LetterData)
    (stored : Option Nat) (key : String) (hk : pyKey ld.key = some key)
    (he : store.existsFn (letterJsonMeta ld key) = true) :
    process_letter api store ld stored = ([.existsCheck (letterJsonMeta ld key)], stored) := by
  simp only [letterJsonMeta] at he
  simp only [process_letter, hk, he, if_true]
  rfl

/-- On a keyed receipt, the trace contains exactly one existence check,
made with the JSON fingerprint. -/
theorem process_receipt_exists_once (api : ReceiptApi) (store : Store) (rd : ReceiptData)
    (stored : Option Nat) (key : String) (hk : pyKey rd.key = some key) :
    (process_receipt api store rd stored).1.countP isExistsEv = 1 ∧
    Ev.existsCheck (receiptJsonMeta rd key) ∈ (process_receipt api store rd stored).1 := by
  simp only [process_receipt, hk, receiptJsonMeta]
  split
  · simp [isExistsEv]
  · rcases api.detail key with e | u
    · simp [isExistsEv]
    · simp only
      rcases store.reportMetadata _ with e | b
      · simp [isExistsEv]
      · simp only
        rcases api.getPdf _ with e | c
        · simp [isExistsEv]
        · simp only
          rcases store.storeFn _ _ with e | b
          · simp [isExistsEv]
          · simp [isExistsEv]

/-- On a keyed letter, the trace contains exactly one existence check,
made with the JSON fingerprint (each part store is guarded by that one
check, never by per-part checks). -/
theorem process_letter_exists_once (api : LetterApi) (store : Store) (ld : LetterData)
    (stored : Option Nat) (key : String) (hk : pyKey ld.key = some key) :
    (process_letter api store ld stored).1.countP isExistsEv = 1 ∧
    Ev.existsCheck (letterJsonMeta ld key) ∈ (process_letter api store ld stored).1 := by
  have hparts : ∀ ps i, (partsLoop api store key (format_date ld.receivedAt)
      (ld.senderName.getD "unknown_sender") (decide (1 < ps.length)) ps i).1.countP isExistsEv = 0 := by
    intro ps
    generalize decide (1 < ps.length) = multi
    induction ps with
    | nil => intro i; rfl
    | cons p rest ih =>
      intro i
      have hstep : ∀ pi, (partStep api store key (format_date ld.receivedAt)
          (ld.senderName.getD "unknown_sender") pi p).1.countP isExistsEv = 0 := by
        intro pi
        simp only [partStep]
        split
        · rcases store.storeFn _ _ with e | b <;> simp [isExistsEv]
        · split
          · rcases store.storeFn _ _ with e | b <;> simp [isExistsEv]
          · split
            · rcases pyKey p.key with _ | fk
              · rfl
              · simp only
                rcases api.contentFile key fk with e | c
                · simp [isExistsEv]
                · simp only
                  rcases store.storeFn _ _ with e | b <;> simp [isExistsEv]
            · rfl
      simp only [partsLoop]
      rcases hps : partStep api store key (format_date ld.receivedAt)
          (ld.senderName.getD "unknown_sender") (if multi then some i else none) p with ⟨t, r⟩
      have := hstep (if multi then some i else none)
      rw [hps] at this
      rcases r with e | n
      · simpa using this
      · have h2 := ih (i + 1)
        rcases hrec : partsLoop api store key (format_date ld.receivedAt)
            (ld.senderName.getD "unknown_sender") multi rest (i + 1) with ⟨t2, r2⟩
        rw [hrec] at h2
        simp only at h2
        simp only [List.countP_append]
        simp only at this ⊢
        rw [this, h2]
  simp only [process_letter, hk, letterJsonMeta]
  split
  · simp [isExistsEv]
  · rcases api.contentDetails key with e | content
    · simp [isExistsEv]
    · simp only
      rcases store.reportMetadata _ with e | b
      · simp [isExistsEv]
      · simp only [process_letter_parts]
        rcases hpl : partsLoop api store key (format_date ld.receivedAt)
            (ld.senderName.getD "unknown_sender")
            (decide (1 < content.parts.length)) content.parts 0 with ⟨pt, pr⟩
        have h0 := hparts content.parts 0
        rw [hpl] at h0
        simp only at h0
        rcases pr with e | n
        · simp [isExistsEv, List.countP_cons, h0]
        · simp only
          constructor
          · simp [isExistsEv, List.countP_cons, h0]
          · simp

/-- Under a store that reports every fingerprint present, processing a
keyed receipt listing leaves the counter unchanged. -/
theorem processReceipts_all_exists (api : ReceiptApi) (store : Store)
    (hex : ∀ m, store.existsFn m = true) :
    ∀ (l : List ReceiptData), (∀ rd ∈ l, (pyKey rd.key).isSome) →
    ∀ c, (processReceipts api store l (some c)).2 = some c := by
  intro l
  induction l with
  | nil => intro _ c; rfl
  | cons rd rest ih =>
    intro hkeys c
    obtain ⟨key, hk⟩ := Option.isSome_iff_exists.mp (hkeys rd (by simp))
    simp only [processReceipts,
      process_receipt_skip api store rd (some c) key hk (hex _)]
    exact ih (fun x hx => hkeys x (by simp [hx])) c

/-- Under a store that reports every fingerprint present, processing a
keyed letter listing leaves the counter unchanged. -/
theorem processLetters_all_exists (api : LetterApi) (store : Store)
    (hex : ∀ m, store.existsFn m = true) :
    ∀ (l : List LetterData), (∀ ld ∈ l, (pyKey ld.key).isSome) →
    ∀ c, (processLetters api store l (some c)).2 = some c := by
  intro l
  induction l with
  | nil => intro _ c; rfl
  | cons ld rest ih =>
    intro hkeys c
    obtain ⟨key, hk⟩ := Option.isSome_iff_exists.mp (hkeys ld (by simp))
    simp only [processLetters,
      process_letter_skip api store ld (some c) key hk (hex _)]
    exact ih (fun x hx => hkeys x (by simp [hx])) c

/-- Splitting the part loop across a concatenation when the first half
completes without raising. -/
theorem partsLoop_ok_append (api : LetterApi) (store : Store)
    (lk d snd : String) (multi : Bool) (ps1 ps2 : List Part) :
    ∀ (i : Nat) (t1 : List Ev) (n1 : Nat),
    partsLoop api store lk d snd multi ps1 i = (t1, .ok n1) →
    partsLoop api store lk d snd multi (ps1 ++ ps2) i =
      (t1 ++ (partsLoop api store lk d snd multi ps2 (i + ps1.length)).1,
       (partsLoop api store lk d snd multi ps2 (i + ps1.length)).2.map (n1 + ·)) := by
  induction ps1 with
  | nil =>
    intro i t1 n1 h
    have h1 := congrArg Prod.fst h
    have h2 := congrArg Prod.snd h
    simp only [partsLoop] at h1 h2
    obtain rfl := h1.symm
    have hn : n1 = 0 := by
      have := h2.symm
      simp only at this
      exact (Except.ok.injEq _ _).mp this
    subst hn
    simp only [List.nil_append, List.length_nil, Nat.add_zero]
    rcases hr : partsLoop api store lk d snd multi ps2 i with ⟨t2, r2⟩
    rcases r2 with e | n <;> simp [Except.map]
  | cons p rest ih =>
    intro i t1 n1 h
    simp only [partsLoop, List.cons_append] at h ⊢
    rcases hps : partStep api store lk d snd (if multi then some i else none) p with ⟨ts, rs⟩
    rw [hps] at h
    rcases rs with e | ns
    · exfalso
      have := congrArg Prod.snd h
      simp at this
    · simp only [List.append_eq] at h ⊢
      rcases hrec : partsLoop api store lk d snd multi rest (i + 1) with ⟨t2, r2⟩
      rw [hrec] at h
      rcases r2 with e | n2
      · exfalso
        have := congrArg Prod.snd h
        simp [Except.map] at this
      · have h1 := congrArg Prod.fst h
        have h2 := congrArg Prod.snd h
        simp only [Except.map] at h1 h2
        obtain rfl := h1.symm
        have hn : n1 = ns + n2 := ((Except.ok.injEq _ _).mp h2).symm
        subst hn
        rw [ih (i + 1) t2 n2 hrec]
        have hidx : i + 1 + rest.length = i + (rest.length + 1) := by omega
        rw [hidx]
        simp only [Prod.mk.injEq]
        constructor
        · simp [List.append_assoc]
        · cases hxy : (partsLoop api store lk d snd multi ps2 (i + (rest.length + 1))).2 with
          | error e => simp [hxy, Except.map]
          | ok v => simp [hxy, Except.map, Nat.add_assoc]

/-! ## Claims -/

/-- Claim C1 (confirmed): for every (keyed) catalog item, existence is
checked exactly once, using only the JSON-metadata fingerprint; when the
store reports that fingerprint present, the entire item is skipped — the
trace holds the single existence check and nothing else (no detail fetch,
no `report_metadata`, no `store`) and the counter is unchanged; and when
`exists` answers `true` for every fingerprint, a whole run (receipts or
letters) reports `stored = 0`. -/
theorem C1_idempotency_gate :
    (∀ (api : ReceiptApi) (store : Store) (rd : ReceiptData) (stored : Option Nat)
       (key : String), pyKey rd.key = some key →
      (process_receipt api store rd stored).1.countP isExistsEv = 1 ∧
      Ev.existsCheck (receiptJsonMeta rd key) ∈ (process_receipt api store rd stored).1) ∧
    (∀ (api : ReceiptApi) (store : Store) (rd : ReceiptData) (stored : Option Nat)
       (key : String), pyKey rd.key = some key →
      store.existsFn (receiptJsonMeta rd key) = true →
      process_receipt api store rd stored = ([.existsCheck (receiptJsonMeta rd key)], stored)) ∧
    (∀ (api : LetterApi) (store : Store) (ld : LetterData) (stored : Option Nat)
       (key : String), pyKey ld.key = some key →
      (process_letter api store ld stored).1.countP isExistsEv = 1 ∧
      Ev.existsCheck (letterJsonMeta ld key) ∈ (process_letter api store ld stored).1) ∧
    (∀ (api : LetterApi) (store : Store) (ld : LetterData) (stored : Option Nat)
       (key : String), pyKey ld.key = some key →
      store.existsFn (letterJsonMeta ld key) = true →
      process_letter api store ld stored = ([.existsCheck (letterJsonMeta ld key)], stored)) ∧
    (∀ (api : ReceiptApi) (store : Store) (page : ReceiptsPage) (mc : Option Nat),
      (∀ m, store.existsFn m = true) →
      api.listResult = .ok page →
      store.reportListing "receipts" = .ok () →
      (∀ rd ∈ page.list, (pyKey rd.key).isSome) →
      ∃ s, (fetch_receipts api store mc).2 = .ok s ∧ s.stored = some 0) ∧
    (∀ (api : LetterApi) (store : Store) (fuel : Nat) (mc : Option Nat)
       (t : List Ev) (all : List LetterData),
      (∀ m, store.existsFn m = true) →
      fetchPages api fuel none = (t, some all) →
      store.reportListing "letters" = .ok () →
      (∀ ld ∈ all, (pyKey ld.key).isSome) →
      ∃ s, (fetch_letters api store fuel mc).2 = .ok s ∧ s.stored = some 0) := by
  refine ⟨?_, ?_, ?_, ?_, ?_, ?_⟩
  · intro api store rd stored key hk
    exact process_receipt_exists_once api store rd stored key hk
  · intro api store rd stored key hk he
    exact process_receipt_skip api store rd stored key hk he
  · intro api store ld stored key hk
    exact process_letter_exists_once api store ld stored key hk
  · intro api store ld stored key hk he
    exact process_letter_skip api store ld stored key hk he
  · intro api store page mc hex h1 h2 hkeys
    simp only [fetch_receipts, h1, h2]
    rcases hpr : processReceipts api store (truncate mc page.list) (some 0) with ⟨t, s⟩
    refine ⟨_, rfl, ?_⟩
    have hsub : ∀ rd ∈ truncate mc page.list, (pyKey rd.key).isSome := by
      intro rd hrd
      rcases mc with _ | n
      · exact hkeys rd hrd
      · exact hkeys rd (List.take_subset n page.list hrd)
    have := processReceipts_all_exists api store hex (truncate mc page.list) hsub 0
    rw [hpr] at this
    simpa using this
  · intro api store fuel mc t all hex h1 h2 hkeys
    simp only [fetch_letters, h1, h2]
    rcases hpr : processLetters api store (truncate mc all) (some 0) with ⟨pt, s⟩
    refine ⟨_, rfl, ?_⟩
    have hsub : ∀ ld ∈ truncate mc all, (pyKey ld.key).isSome := by
      intro ld hld
      rcases mc with _ | n
      · exact hkeys ld hld
      · exact hkeys ld (List.take_subset n all hld)
    have := processLetters_all_exists api store hex (truncate mc all) hsub 0
    rw [hpr] at this
    simpa using this

/-- Claim C1, witness: with a store on which everything already exists,
the concrete one-receipt run stores nothing (`stored = 0`). -/
theorem C1_witness :
    ∃ s, (fetch_receipts rApi1 allTrueStore none).2 = .ok s ∧ s.stored = some 0 :=
  C1_idempotency_gate.2.2.2.2.1 rApi1 allTrueStore
    ⟨[⟨some "R1", some "2024-01-01T00:00:00", some "Shop"⟩], some 1⟩ none
    (fun _ => rfl) rfl rfl (by decide)

/-- Claim C7, counterexample: an authorization-initialization response
carrying a scannable code and an authorization code but *no polling URL*
is not treated as fatal — `authenticate`'s check (`if not qr_code or not
auth_code`) passes, contradicting the claim that the absence of any of the
three fields aborts the run. -/
theorem C7_counterexample :
    authInitFatal ⟨some "QRDATA", none, some "AUTHCODE"⟩ = false ∧
    falsy (AuthData.next_poll_url ⟨some "QRDATA", none, some "AUTHCODE"⟩) = true :=
  ⟨rfl, rfl⟩

/-- Claim C7, amended: the authenticator validates only the scannable code
and the authorization code — it aborts iff either of those is absent
(falsy), and the polling URL plays no role in the check. -/
theorem C7_auth_init_validation :
    (∀ a : AuthData,
      authInitFatal a = false ↔ falsy a.qr_code = false ∧ falsy a.code = false) ∧
    (∀ (a : AuthData) (u u' : Option String),
      authInitFatal { a with next_poll_url := u } =
        authInitFatal { a with next_poll_url := u' }) := by
  constructor
  · intro a
    simp [authInitFatal]
  · intro a u u'
    rfl

/-- Claim C6, counterexample: with a store whose `report_listing` raises,
`fetch_receipts` performs no per-item processing and re-raises (returns
the error) instead of returning statistics — the listing-snapshot failure
aborts the run. -/
theorem C6_counterexample :
    fetch_receipts rApi1 failListStore none =
      ([.listReq, .reportListing "receipts"], .error "disk full") := rfl

/-- Claim C6, amended: a raised `report_listing` failure is caught by the
fetcher's outer handler, which logs and re-raises it: the fetch aborts
with that error, before any per-item processing, and returns no
statistics (for receipts and letters alike).  Only failures the store
handles internally (returning normally) leave the run unaffected. -/
theorem C6_listing_failure_aborts :
    (∀ (api : ReceiptApi) (store : Store) (page : ReceiptsPage)
       (mc : Option Nat) (e : String),
      api.listResult = .ok page →
      store.reportListing "receipts" = .error e →
      fetch_receipts api store mc = ([.listReq, .reportListing "receipts"], .error e)) ∧
    (∀ (api : LetterApi) (store : Store) (fuel : Nat) (mc : Option Nat)
       (t : List Ev) (all : List LetterData) (e : String),
      fetchPages api fuel none = (t, some all) →
      store.reportListing "letters" = .error e →
      fetch_letters api store fuel mc = (t ++ [.reportListing "letters"], .error e)) := by
  constructor
  · intro api store page mc e h1 h2
    simp only [fetch_receipts, h1, h2]
  · intro api store fuel mc t all e h1 h2
    simp only [fetch_letters, h1, h2]

/-- Claim C6, witness at a concrete input: a one-page letters run whose
store raises on `report_listing` aborts with that error. -/
theorem C6_witness :
    fetch_letters lApi1 failListStore 1 none =
      ([.listReq, .reportListing "letters"], .error "disk full") :=
  C6_listing_failure_aborts.2 lApi1 failListStore 1 none [.listReq]
    [⟨some "L1", some "2024-03-03T09:00:00", some "Gov"⟩] "disk full" rfl rfl

/-- Claim C10 (confirmed): an item without a (non-falsy) `key` makes the
per-item processing function return bare `return` — `None` — in place of
the counter; a `None` counter then stays `None` for the remainder of the
run (later increments raise `TypeError` inside the per-item guard and are
swallowed); and the fetch operation still completes, reporting a stored
statistic of `None` rather than a number, for receipts and letters
alike. -/
theorem C10_missing_key_poisons_counter :
    (∀ (api : ReceiptApi) (store : Store) (rd : ReceiptData) (stored : Option Nat),
      pyKey rd.key = none → process_receipt api store rd stored = ([], none)) ∧
    (∀ (api : ReceiptApi) (store : Store) (l : List ReceiptData),
      (processReceipts api store l none).2 = none) ∧
    (∀ (api : ReceiptApi) (store : Store) (page : ReceiptsPage) (mc : Option Nat)
       (pre : List ReceiptData) (rd : ReceiptData) (post : List ReceiptData),
      api.listResult = .ok page →
      store.reportListing "receipts" = .ok () →
      truncate mc page.list = pre ++ rd :: post →
      pyKey rd.key = none →
      ∃ s, (fetch_receipts api store mc).2 = .ok s ∧ s.stored = none) ∧
    (∀ (api : LetterApi) (store : Store) (ld : LetterData) (stored : Option Nat),
      pyKey ld.key = none → process_letter api store ld stored = ([], none)) ∧
    (∀ (api : LetterApi) (store : Store) (fuel : Nat) (mc : Option Nat)
       (t : List Ev) (all pre : List LetterData) (ld : LetterData) (post : List LetterData),
      fetchPages api fuel none = (t, some all) →
      store.reportListing "letters" = .ok () →
      truncate mc all = pre ++ ld :: post →
      pyKey ld.key = none →
      ∃ s, (fetch_letters api store fuel mc).2 = .ok s ∧ s.stored = none) := by
  refine ⟨?_, ?_, ?_, ?_, ?_⟩
  · intro api store rd stored h
    simp only [process_receipt, h]
  · intro api store l
    exact processReceipts_stored_none api store l
  · intro api store page mc pre rd post h1 h2 h3 hk
    simp only [fetch_receipts, h1, h2]
    rcases hpr : processReceipts api store (truncate mc page.list) (some 0) with ⟨t, s⟩
    refine ⟨_, rfl, ?_⟩
    have : s = none := by
      have h4 := congrArg Prod.snd hpr
      rw [h3, processReceipts_append] at h4
      simp only [processReceipts, process_receipt, hk] at h4
      rcases processReceipts api store pre (some 0) with ⟨t1, s1⟩
      simp only [processReceipts_stored_none] at h4
      exact h4.symm
    simpa using this
  · intro api store ld stored h
    simp only [process_letter, h]
  · intro api store fuel mc t all pre ld post h1 h2 h3 hk
    simp only [fetch_letters, h1, h2]
    rcases hpr : processLetters api store (truncate mc all) (some 0) with ⟨pt, s⟩
    refine ⟨_, rfl, ?_⟩
    have : s = none := by
      have h4 := congrArg Prod.snd hpr
      rw [h3, processLetters_append] at h4
      simp only [processLetters, process_letter, hk] at h4
      rcases processLetters api store pre (some 0) with ⟨t1, s1⟩
      simp only [processLetters_stored_none] at h4
      exact h4.symm
    simpa using this

/-- Claim C10, witness: a concrete two-receipt run whose first item lacks
a key reports `stored = None` while still returning statistics. -/
theorem C10_witness :
    ∃ s, (fetch_receipts
        ⟨.ok ⟨[⟨none, some "2024-01-01T00:00:00", some "Shop"⟩,
               ⟨some "R2", some "2024-01-02T00:00:00", some "Shop"⟩], some 2⟩,
         fun _ => .ok (), fun _ => .ok [1], "ACTOR"⟩ okStore none).2 = .ok s ∧
      s.stored = none :=
  C10_missing_key_poisons_counter.2.2.1
    ⟨.ok ⟨[⟨none, some "2024-01-01T00:00:00", some "Shop"⟩,
           ⟨some "R2", some "2024-01-02T00:00:00", some "Shop"⟩], some 2⟩,
     fun _ => .ok (), fun _ => .ok [1], "ACTOR"⟩ okStore
    ⟨[⟨none, some "2024-01-01T00:00:00", some "Shop"⟩,
      ⟨some "R2", some "2024-01-02T00:00:00", some "Shop"⟩], some 2⟩ none
    [] ⟨none, some "2024-01-01T00:00:00", some "Shop"⟩
    [⟨some "R2", some "2024-01-02T00:00:00", some "Shop"⟩]
    rfl rfl rfl rfl

/-- Length of a truncated listing. -/
theorem truncate_length (mc : Option Nat) (l : List α) :
    (truncate mc l).length = min (mc.getD l.length) l.length := by
  rcases mc with _ | n
  · simp [truncate]
  · simp [truncate]

/-- Claim C3, counterexample: a letters run over a single page listing one
item whose server `total` field says 5 reports `total = 1` (the
accumulated listing length), not the server-reported value — the letters
statistics never read the server's `total` field. -/
theorem C3_counterexample :
    (fetch_letters lApi1 allTrueStore 1 none).2 = .ok ⟨1, 1, some 0⟩ ∧
    (lApi1.pages none).total = some 5 ∧ (1 : Nat) ≠ 5 :=
  ⟨rfl, rfl, by decide⟩

/-- Claim C3, amended: `total` is independent of `max_count`, but it is
the server-reported `total` field only for receipts; for letters it is
the length of the full accumulated listing.  `fetched` equals
`min(max_count, len(listing))` when `max_count` is set (`max_count = 0`
included — the code tests `is not None`, not truthiness) and
`len(listing)` otherwise; truncation happens strictly after the full
listing is accumulated. -/
theorem C3_truncation_independence :
    (∀ (api : ReceiptApi) (store : Store) (page : ReceiptsPage) (mc : Option Nat),
      api.listResult = .ok page →
      store.reportListing "receipts" = .ok () →
      ∃ s, (fetch_receipts api store mc).2 = .ok s ∧
        s.total = page.total.getD 0 ∧
        s.fetched = min (mc.getD page.list.length) page.list.length) ∧
    (∀ (api : LetterApi) (store : Store) (fuel : Nat) (mc : Option Nat)
       (t : List Ev) (all : List LetterData),
      fetchPages api fuel none = (t, some all) →
      store.reportListing "letters" = .ok () →
      ∃ s, (fetch_letters api store fuel mc).2 = .ok s ∧
        s.total = all.length ∧
        s.fetched = min (mc.getD all.length) all.length) := by
  constructor
  · intro api store page mc h1 h2
    simp only [fetch_receipts, h1, h2]
    rcases processReceipts api store (truncate mc page.list) (some 0) with ⟨t, s⟩
    exact ⟨_, rfl, rfl, truncate_length mc page.list⟩
  · intro api store fuel mc t all h1 h2
    simp only [fetch_letters, h1, h2]
    rcases processLetters api store (truncate mc all) (some 0) with ⟨pt, s⟩
    exact ⟨_, rfl, rfl, truncate_length mc all⟩

/-- Claim C3, witness: the concrete one-receipt run with `max_count = 0`
reports `total = 1` and `fetched = 0`. -/
theorem C3_witness :
    ∃ s, (fetch_receipts rApi1 okStore (some 0)).2 = .ok s ∧
      s.total = (some 1 : Option Nat).getD 0 ∧
      s.fetched = min ((some 0 : Option Nat).getD 1) 1 :=
  C3_truncation_independence.1 rApi1 okStore
    ⟨[⟨some "R1", some "2024-01-01T00:00:00", some "Shop"⟩], some 1⟩ (some 0) rfl rfl

/-- Claim C4 (confirmed): parts of declared type `text/plain` and
`text/html` are stored verbatim, `application/pdf` parts trigger a file
fetch by file key before being stored, other types are skipped; the
concrete detail `[text/plain, application/pdf, text/html,
application/x-unknown]` yields exactly 3 stored parts (3 `store` calls);
and an item is counted as stored iff at least one content part was newly
persisted — at most once per item, with metadata persistence alone
(`report_metadata`) not counting. -/
theorem C4_part_dispatch :
    (∀ (api : LetterApi) (store : Store) (ld : LetterData) (stored : Option Nat)
       (key : String) (content : ContentData) (b : Bool) (pt : List Ev) (n : Nat),
      pyKey ld.key = some key →
      store.existsFn (letterJsonMeta ld key) = false →
      api.contentDetails key = .ok content →
      store.reportMetadata (letterJsonMeta ld key) = .ok b →
      process_letter_parts api store key (format_date ld.receivedAt)
        (ld.senderName.getD "unknown_sender") content = (pt, .ok n) →
      process_letter api store ld stored =
        (.existsCheck (letterJsonMeta ld key) :: .detailFetch key ::
          .reportMetadata (letterJsonMeta ld key) :: pt,
         if 0 < n then incr stored else stored)) ∧
    (process_letter_parts lApi4 okStore "L4" "2024-05-05" "ACME" ⟨parts4⟩).2 = .ok 3 ∧
    ((process_letter_parts lApi4 okStore "L4" "2024-05-05" "ACME" ⟨parts4⟩).1.countP
      isStoreEv) = 3 ∧
    (process_letter lApi4 okStore
      ⟨some "L4", some "2024-05-05T08:00:00", some "ACME"⟩ (some 0)).2 = some 1 ∧
    (process_letter lApiUnknown okStore
        ⟨some "L5", some "2024-06-06T08:00:00", some "ACME"⟩ (some 0) =
      ([.existsCheck (letterMeta "L5" "2024-06-06" "ACME" "application/json" none),
        .detailFetch "L5",
        .reportMetadata (letterMeta "L5" "2024-06-06" "ACME" "application/json" none)],
       some 0)) := by
  refine ⟨?_, rfl, rfl, rfl, rfl⟩
  intro api store ld stored key content b pt n hk he hd hm hpl
  simp only [letterJsonMeta] at he hm ⊢
  simp only [process_letter, hk, he, hd, hm, Bool.false_eq_true, if_false]
  rw [hpl]

/-- Claim C4, witness: the general counting rule applied to the concrete
four-part letter — the counter advances from 5 to 6 exactly once. -/
theorem C4_witness :
    process_letter lApi4 okStore
      ⟨some "L4", some "2024-05-05T08:00:00", some "ACME"⟩ (some 5) =
      (.existsCheck (letterJsonMeta ⟨some "L4", some "2024-05-05T08:00:00", some "ACME"⟩ "L4") ::
        .detailFetch "L4" ::
        .reportMetadata (letterJsonMeta ⟨some "L4", some "2024-05-05T08:00:00", some "ACME"⟩ "L4") ::
        (process_letter_parts lApi4 okStore "L4" "2024-05-05" "ACME" ⟨parts4⟩).1,
       if 0 < 3 then incr (some 5) else some 5) :=
  C4_part_dispatch.1 lApi4 okStore
    ⟨some "L4", some "2024-05-05T08:00:00", some "ACME"⟩ (some 5) "L4" ⟨parts4⟩
    true (process_letter_parts lApi4 okStore "L4" "2024-05-05" "ACME" ⟨parts4⟩).1 3
    (by rfl) (by rfl) (by rfl) (by rfl) (by rfl)

/-- Claim C5 (confirmed): a PDF content-fetch failure during part
processing is fatal to the item only — the part loop stops exactly at the
failing part (parts already persisted keep their `store` events, later
parts contribute nothing), the raised error is swallowed by the per-item
handler (the counter comes back unchanged, nothing propagates further),
and the fetch operation still returns statistics for the whole run once
the list phase succeeded (receipts analogously). -/
theorem C5_pdf_failure_item_scoped :
    (∀ (api : LetterApi) (store : Store) (lk d snd : String) (multi : Bool)
       (ps1 : List Part) (p : Part) (ps2 : List Part) (i : Nat)
       (t1 : List Ev) (n1 : Nat) (fk e : String),
      partsLoop api store lk d snd multi ps1 i = (t1, .ok n1) →
      p.contentType = some "application/pdf" →
      pyKey p.key = some fk →
      api.contentFile lk fk = .error e →
      partsLoop api store lk d snd multi (ps1 ++ p :: ps2) i =
        (t1 ++ [.fileFetch lk fk], .error e)) ∧
    (∀ (api : LetterApi) (store : Store) (ld : LetterData) (stored : Option Nat)
       (key : String) (content : ContentData) (b : Bool) (pt : List Ev) (e : String),
      pyKey ld.key = some key →
      store.existsFn (letterJsonMeta ld key) = false →
      api.contentDetails key = .ok content →
      store.reportMetadata (letterJsonMeta ld key) = .ok b →
      process_letter_parts api store key (format_date ld.receivedAt)
        (ld.senderName.getD "unknown_sender") content = (pt, .error e) →
      process_letter api store ld stored =
        (.existsCheck (letterJsonMeta ld key) :: .detailFetch key ::
          .reportMetadata (letterJsonMeta ld key) :: pt, stored)) ∧
    (∀ (api : LetterApi) (store : Store) (fuel : Nat) (mc : Option Nat)
       (t : List Ev) (all : List LetterData),
      fetchPages api fuel none = (t, some all) →
      store.reportListing "letters" = .ok () →
      ∃ s, (fetch_letters api store fuel mc).2 = .ok s) ∧
    (∀ (api : ReceiptApi) (store : Store) (page : ReceiptsPage) (mc : Option Nat),
      api.listResult = .ok page →
      store.reportListing "receipts" = .ok () →
      ∃ s, (fetch_receipts api store mc).2 = .ok s) ∧
    (∀ (api : ReceiptApi) (store : Store) (rd : ReceiptData) (stored : Option Nat)
       (key e : String) (b : Bool),
      pyKey rd.key = some key →
      store.existsFn (receiptJsonMeta rd key) = false →
      api.detail key = .ok () →
      store.reportMetadata (receiptJsonMeta rd key) = .ok b →
      api.getPdf (pdfUrl api.actorKey key) = .error e →
      process_receipt api store rd stored =
        ([.existsCheck (receiptJsonMeta rd key), .detailFetch key,
          .reportMetadata (receiptJsonMeta rd key),
          .pdfFetch (pdfUrl api.actorKey key)], stored)) := by
  refine ⟨?_, ?_, ?_, ?_, ?_⟩
  · intro api store lk d snd multi ps1 p ps2 i t1 n1 fk e hl hct hk hf
    rw [partsLoop_ok_append api store lk d snd multi ps1 (p :: ps2) i t1 n1 hl]
    have hstep : partStep api store lk d snd
        (if multi then some (i + ps1.length) else none) p =
        ([.fileFetch lk fk], .error e) := by
      simp [partStep, hct, hk, hf]
    simp [partsLoop, hstep, Except.map]
  · intro api store ld stored key content b pt e hk he hd hm hpl
    simp only [letterJsonMeta] at he hm ⊢
    simp only [process_letter, hk, he, hd, hm, Bool.false_eq_true, if_false]
    rw [hpl]
  · intro api store fuel mc t all h1 h2
    simp only [fetch_letters, h1, h2]
    rcases processLetters api store (truncate mc all) (some 0) with ⟨pt, s⟩
    exact ⟨_, rfl⟩
  · intro api store page mc h1 h2
    simp only [fetch_receipts, h1, h2]
    rcases processReceipts api store (truncate mc page.list) (some 0) with ⟨t, s⟩
    exact ⟨_, rfl⟩
  · intro api store rd stored key e b hk he hd hm hpdf
    simp only [receiptJsonMeta] at he hm ⊢
    simp only [process_receipt, hk, he, hd, hm, hpdf, Bool.false_eq_true, if_false]

/-- Claim C5, witness: concretely, a three-part letter whose middle part
is a PDF that fails to fetch keeps the already-stored first part's
`store` event, never reaches the third part, and raises out of the part
loop. -/
theorem C5_witness :
    partsLoop lApiPdfFail okStore "L6" "2024-07-07" "Bank" true
      ([⟨some "text/plain", some "body", none⟩] ++
        ⟨some "application/pdf", none, some "F9"⟩ ::
        [⟨some "text/plain", some "after", none⟩]) 0 =
      ([.storeCall (.text (some "body"))
          (letterMeta "L6" "2024-07-07" "Bank" "text/plain" (some 0))] ++
        [.fileFetch "L6" "F9"], .error "http 500") :=
  C5_pdf_failure_item_scoped.1 lApiPdfFail okStore "L6" "2024-07-07" "Bank" true
    [⟨some "text/plain", some "body", none⟩]
    ⟨some "application/pdf", none, some "F9"⟩
    [⟨some "text/plain", some "after", none⟩] 0
    [.storeCall (.text (some "body"))
      (letterMeta "L6" "2024-07-07" "Bank" "text/plain" (some 0))] 1
    "F9" "http 500" (by rfl) (by rfl) (by rfl) (by rfl)

/-- The pagination loop visits exactly the served pages: one list request
per page, accumulating their concatenation in order. -/
theorem fetchPages_serves :
    ∀ (pages : List (List LetterData)) (api : LetterApi) (c : Option String) (fuel : Nat),
    Serves api c pages → pages.length ≤ fuel →
    fetchPages api fuel c = (List.replicate pages.length .listReq, some pages.flatten) := by
  intro pages
  induction pages with
  | nil => intro api c fuel h _; exact absurd h (by simp [Serves])
  | cons p rest ih =>
    intro api c fuel h hfuel
    rcases rest with _ | ⟨q, rest'⟩
    · obtain ⟨hlist, hmore⟩ := h
      rcases fuel with _ | f
      · simp at hfuel
      · simp [fetchPages, hmore, hlist]
    · obtain ⟨hlist, hmore, hne, k, hk, hserves⟩ := h
      rcases fuel with _ | f
      · simp at hfuel
      · have hlen : (q :: rest').length + 1 ≤ f + 1 := hfuel

        have hrec := ih api (some k) f hserves (by simpa using hlen)
        have hempty : (api.pages c).list.isEmpty = false := by
          rw [hlist]
          rcases p with _ | _
          · exact absurd rfl hne
          · rfl
        simp only [fetchPages, hmore, hempty, Bool.not_true, Bool.false_or, hlist, hk]
        simp [hrec, List.replicate_succ]
        exact hne

/-- Claim C2 (confirmed): for a listing served across `N` pages under the
cursor protocol (cursor = previous page's last item key, `existsMore` set
on all but the last page, non-last pages non-empty), `fetch_letters`'s
pagination loop issues exactly `N` list requests and accumulates the
concatenation of the pages in server order — the same list a single
unpaginated fetch of that data returns (with one request). -/
theorem C2_pagination_completeness :
    (∀ (api : LetterApi) (pages : List (List LetterData)) (fuel : Nat),
      Serves api none pages → pages.length ≤ fuel →
      fetchPages api fuel none =
        (List.replicate pages.length .listReq, some pages.flatten)) ∧
    (∀ (api2 : LetterApi) (pages : List (List LetterData)) (fuel2 : Nat),
      (api2.pages none).list = pages.flatten →
      (api2.pages none).existsMore = false →
      1 ≤ fuel2 →
      fetchPages api2 fuel2 none = ([.listReq], some pages.flatten)) := by
  constructor
  · intro api pages fuel h hfuel
    exact fetchPages_serves pages api none fuel h hfuel
  · intro api2 pages fuel2 hlist hmore hfuel
    rcases fuel2 with _ | f
    · omega
    · simp [fetchPages, hmore, hlist]

/-- Claim C2, witness: the concrete two-page fixture produces exactly 2
list requests and the three letters in order, matching the unpaginated
concatenation. -/
theorem C2_witness :
    fetchPages lApiPaged 2 none =
      (List.replicate 2 .listReq,
       some ([[⟨some "K1", some "2024-01-01T04:00:00", some "A"⟩,
               ⟨some "K2", some "2024-01-02T04:00:00", some "B"⟩],
              [⟨some "K3", some "2024-01-03T04:00:00", some "C"⟩]] :
         List (List LetterData)).flatten) :=
  C2_pagination_completeness.1 lApiPaged
    [[⟨some "K1", some "2024-01-01T04:00:00", some "A"⟩,
      ⟨some "K2", some "2024-01-02T04:00:00", some "B"⟩],
     [⟨some "K3", some "2024-01-03T04:00:00", some "C"⟩]] 2
    ⟨rfl, rfl, by decide, "K2", rfl, rfl, rfl⟩ (by decide)

/-- The poll-iteration pattern contains no notification, no token post,
and exactly one poll request per iteration. -/
theorem pollPrefixFrom_counts :
    ∀ (k i : Nat),
      (pollPrefixFrom i k).countP isNotify = 0 ∧
      (pollPrefixFrom i k).countP isTokenPost = 0 ∧
      (pollPrefixFrom i k).countP isPollReq = k := by
  intro k
  induction k with
  | zero => intro i; exact ⟨rfl, rfl, rfl⟩
  | succ k ih =>
    intro i
    obtain ⟨h1, h2, h3⟩ := ih (i + 1)
    refine ⟨?_, ?_, ?_⟩ <;>
      simp [pollPrefixFrom, List.countP_cons, isNotify, isTokenPost, isPollReq, h1, h2, h3]

/-- After `k` pending responses and then a `complete`, the poll loop
produces the `k + 1` sleep/poll pairs followed by the success
notification and the token post, and hands over to the token-exchange
continuation. -/
theorem poll_pending_then_complete :
    ∀ (k : Nat) (env : AuthEnv) (i fuel : Nat),
    (∀ j, j < k → (env.poll (i + j)).status = some "pending") →
    (env.poll (i + k)).status = some "complete" →
    k + 1 ≤ fuel →
    poll_for_auth env fuel i =
      (pollPrefixFrom i (k + 1) ++ [.notifySuccess, .tokenPost], completeBranch env) := by
  intro k
  induction k with
  | zero =>
    intro env i fuel _ hc hfuel
    rcases fuel with _ | f
    · omega
    · simp only [Nat.add_zero] at hc
      simp [poll_for_auth, hc, pollPrefixFrom]
  | succ k ih =>
    intro env i fuel hp hc hfuel
    rcases fuel with _ | f
    · omega
    · have hp0 : (env.poll i).status = some "pending" := by
        have := hp 0 (by omega)
        simpa using this
      have hrec := ih env (i + 1) f
        (fun j hj => by
          have := hp (j + 1) (by omega)
          simpa [Nat.add_assoc, Nat.add_comm, Nat.add_left_comm] using this)
        (by
          have := hc
          simpa [Nat.add_assoc, Nat.add_comm, Nat.add_left_comm] using this)
        (by omega)
      simp [poll_for_auth, hp0, hrec, pollPrefixFrom]

/-- After `k` pending responses, a status that is neither `pending` nor
`complete` terminates the loop fatally, with no notification and no token
post. -/
theorem poll_pending_then_other :
    ∀ (k : Nat) (env : AuthEnv) (i fuel : Nat),
    (∀ j, j < k → (env.poll (i + j)).status = some "pending") →
    (env.poll (i + k)).status ≠ some "complete" →
    (env.poll (i + k)).status ≠ some "pending" →
    k + 1 ≤ fuel →
    poll_for_auth env fuel i =
      (pollPrefixFrom i (k + 1), .fatal "BankID authentication failed") := by
  intro k
  induction k with
  | zero =>
    intro env i fuel _ hc hpend hfuel
    rcases fuel with _ | f
    · omega
    · simp only [Nat.add_zero] at hc hpend
      simp [poll_for_auth, hc, hpend, pollPrefixFrom]
  | succ k ih =>
    intro env i fuel hp hc hpend hfuel
    rcases fuel with _ | f
    · omega
    · have hp0 : (env.poll i).status = some "pending" := by
        have := hp 0 (by omega)
        simpa using this
      have hrec := ih env (i + 1) f
        (fun j hj => by
          have := hp (j + 1) (by omega)
          simpa [Nat.add_assoc, Nat.add_comm, Nat.add_left_comm] using this)
        (by
          have := hc
          simpa [Nat.add_assoc, Nat.add_comm, Nat.add_left_comm] using this)
        (by
          have := hpend
          simpa [Nat.add_assoc, Nat.add_comm, Nat.add_left_comm] using this)
        (by omega)
      simp [poll_for_auth, hp0, hrec, pollPrefixFrom]

/-- On pending-forever responses the loop consumes all fuel, one
sleep/poll pair per unit, without returning. -/
theorem poll_all_pending :
    ∀ (fuel : Nat) (env : AuthEnv) (i : Nat),
    (∀ j, (env.poll j).status = some "pending") →
    poll_for_auth env fuel i = (pollPrefixFrom i fuel, .outOfFuel) := by
  intro fuel
  induction fuel with
  | zero => intro env i _; rfl
  | succ f ih =>
    intro env i hp
    simp [poll_for_auth, hp i, ih env (i + 1) hp, pollPrefixFrom]

/-- Claim C8 (confirmed): the poll loop sleeps a fixed 5 time units
before every poll request; `k` pending responses followed by the first
`complete` yield exactly `k + 1` poll requests, after which the success
notification fires exactly once, strictly before the token-exchange
`POST` (the trace ends `…, notifySuccess, tokenPost`); on pending-forever
the loop polls without bound (one poll per fuel unit, never returning);
and a status that is neither `pending` nor `complete` aborts the run with
no notification and no token post. -/
theorem C8_poll_state_machine :
    (∀ (env : AuthEnv) (k fuel : Nat),
      (∀ j, j < k → (env.poll j).status = some "pending") →
      (env.poll k).status = some "complete" →
      k + 1 ≤ fuel →
      poll_for_auth env fuel 0 =
        (pollPrefixFrom 0 (k + 1) ++ [.notifySuccess, .tokenPost], completeBranch env) ∧
      (poll_for_auth env fuel 0).1.countP isNotify = 1 ∧
      (poll_for_auth env fuel 0).1.countP isTokenPost = 1 ∧
      (poll_for_auth env fuel 0).1.countP isPollReq = k + 1 ∧
      ∃ pre, (poll_for_auth env fuel 0).1 = pre ++ [.notifySuccess, .tokenPost] ∧
        pre.countP isNotify = 0 ∧ pre.countP isTokenPost = 0) ∧
    (∀ (env : AuthEnv) (fuel : Nat),
      (∀ j, (env.poll j).status = some "pending") →
      poll_for_auth env fuel 0 = (pollPrefixFrom 0 fuel, .outOfFuel)) ∧
    (∀ (env : AuthEnv) (k fuel : Nat),
      (∀ j, j < k → (env.poll j).status = some "pending") →
      (env.poll k).status ≠ some "complete" →
      (env.poll k).status ≠ some "pending" →
      k + 1 ≤ fuel →
      poll_for_auth env fuel 0 =
        (pollPrefixFrom 0 (k + 1), .fatal "BankID authentication failed") ∧
      (poll_for_auth env fuel 0).1.countP isNotify = 0 ∧
      (poll_for_auth env fuel 0).1.countP isTokenPost = 0 ∧
      (poll_for_auth env fuel 0).1.countP isPollReq = k + 1) := by
  refine ⟨?_, ?_, ?_⟩
  · intro env k fuel hp hc hfuel
    have heq := poll_pending_then_complete k env 0 fuel
      (fun j hj => by simpa using hp j hj) (by simpa using hc) hfuel
    obtain ⟨c1, c2, c3⟩ := pollPrefixFrom_counts (k + 1) 0
    refine ⟨heq, ?_, ?_, ?_, pollPrefixFrom 0 (k + 1), ?_, c1, c2⟩
    · simp [heq, List.countP_append, c1, isNotify, isTokenPost]
    · simp [heq, List.countP_append, c2, isNotify, isTokenPost]
    · simp [heq, List.countP_append, c3, isPollReq]
    · simp [heq]
  · intro env fuel hp
    exact poll_all_pending fuel env 0 hp
  · intro env k fuel hp hc hpend hfuel
    have heq := poll_pending_then_other k env 0 fuel
      (fun j hj => by simpa using hp j hj) (by simpa using hc) (by simpa using hpend) hfuel
    obtain ⟨c1, c2, c3⟩ := pollPrefixFrom_counts (k + 1) 0
    exact ⟨heq, by simp [heq, c1], by simp [heq, c2], by simp [heq, c3]⟩

/-- Claim C8, witness: three pending polls then `complete` give exactly 4
sleep/poll pairs followed by the notification and the token post. -/
theorem C8_witness :
    poll_for_auth authEnv1 4 0 =
      (pollPrefixFrom 0 4 ++ [.notifySuccess, .tokenPost], completeBranch authEnv1) :=
  (C8_poll_state_machine.1 authEnv1 3 4 (by decide) (by decide) (by decide)).1

/-! ## Base64 and challenge lemmas -/

theorem urlChar_stdVal : ∀ v, v < 62 → stdVal? (urlChar v) = some v := by decide
theorem urlChar_ne_eq : ∀ v, v < 64 → ¬(urlChar v = '=') := by decide
theorem sextets_lt : ∀ bs : List Nat, (∀ b ∈ bs, b < 256) → ∀ v ∈ sextets bs, v < 64 := by
  intro bs
  induction bs using sextets.induct with
  | case1 => intro _ v hv; simp [sextets] at hv
  | case2 b0 =>
    intro hb v hv
    have h0 : b0 < 256 := hb b0 (by simp)
    simp [sextets] at hv
    rcases hv with h | h <;> omega
  | case3 b0 b1 =>
    intro hb v hv
    have h0 : b0 < 256 := hb b0 (by simp)
    have h1 : b1 < 256 := hb b1 (by simp)
    simp [sextets] at hv
    rcases hv with h | h | h <;> omega
  | case4 b0 b1 b2 rest ih =>
    intro hb v hv
    have h0 : b0 < 256 := hb b0 (by simp)
    have h1 : b1 < 256 := hb b1 (by simp)
    have h2 : b2 < 256 := hb b2 (by simp)
    simp only [sextets, List.mem_cons] at hv
    rcases hv with h | h | h | h | h
    · omega
    · omega
    · omega
    · omega
    · exact ih (fun b hbm => hb b (by simp [hbm])) v h

theorem charVals_map_urlChar :
    ∀ vals : List Nat, (∀ v ∈ vals, v < 62) →
    charVals (vals.map urlChar) = some vals := by
  intro vals
  induction vals with
  | nil => intro _; rfl
  | cons v rest ih =>
    intro h
    have hv := urlChar_stdVal v (h v (by simp))
    simp [charVals, hv, ih (fun x hx => h x (by simp [hx]))]

theorem decodeSextets_sextets :
    ∀ bs : List Nat, (∀ b ∈ bs, b < 256) →
    decodeSextets (sextets bs) true = some bs := by
  intro bs
  induction bs using sextets.induct with
  | case1 => intro _; rfl
  | case2 b0 =>
    intro hb
    have h0 : b0 < 256 := hb b0 (by simp)
    simp only [sextets, decodeSextets, if_true, Option.some.injEq, List.cons.injEq, and_true]
    omega
  | case3 b0 b1 =>
    intro hb
    have h0 : b0 < 256 := hb b0 (by simp)
    have h1 : b1 < 256 := hb b1 (by simp)
    simp only [sextets, decodeSextets, if_true, Option.some.injEq, List.cons.injEq, and_true]
    constructor <;> omega
  | case4 b0 b1 b2 rest ih =>
    intro hb
    have h0 : b0 < 256 := hb b0 (by simp)
    have h1 : b1 < 256 := hb b1 (by simp)
    have h2 : b2 < 256 := hb b2 (by simp)
    have hrest := ih (fun b hbm => hb b (by simp [hbm]))
    simp only [sextets, decodeSextets, hrest, Option.map, Option.some.injEq,
      List.cons.injEq, and_true]
    exact ⟨by omega, by omega, by omega⟩

theorem takeWhile_append_of_all {α : Type} (p : α → Bool) :
    ∀ (xs ys : List α), (∀ x ∈ xs, p x = true) →
    List.takeWhile p (xs ++ ys) = xs ++ List.takeWhile p ys := by
  intro xs ys
  induction xs with
  | nil => intro _; rfl
  | cons x rest ih =>
    intro h
    simp only [List.cons_append, List.takeWhile_cons, h x (by simp), if_true,
      ih (fun a ha => h a (by simp [ha]))]

theorem dropWhile_all_false {α : Type} (p : α → Bool) :
    ∀ l : List α, (∀ c ∈ l, p c = false) → List.dropWhile p l = l := by
  intro l h
  rcases l with _ | ⟨x, rest⟩
  · rfl
  · simp [List.dropWhile_cons, h x (by simp)]

theorem rstripEq_append_pad (xs : List Char) (m : Nat) :
    rstripEq (xs ++ List.replicate m '=') = rstripEq xs := by
  simp only [rstripEq, List.reverse_append, List.reverse_replicate]
  congr 1
  induction m with
  | zero => simp
  | succ k ih =>
    simp only [List.replicate_succ, List.cons_append, List.dropWhile_cons]
    simp only [decide_True, if_true]
    exact ih

theorem rstripEq_of_no_eq (xs : List Char) (h : ∀ c ∈ xs, ¬(c = '=')) :
    rstripEq xs = xs := by
  simp only [rstripEq]
  rw [dropWhile_all_false _ _ (fun c hc =>
    decide_eq_false (h c (List.mem_reverse.mp hc)))]
  simp

theorem b64_roundtrip :
    ∀ bs : List Nat, (∀ b ∈ bs, b < 256) →
    '-' ∉ pyUrlsafeB64encode bs →
    '_' ∉ pyUrlsafeB64encode bs →
    pyB64decode (restorePad (rstripEq (pyUrlsafeB64encode bs))) = some bs := by
  intro bs hb hnd hnu
  have hlt64 := sextets_lt bs hb
  have hlt62 : ∀ v ∈ sextets bs, v < 62 := by
    intro v hv
    rcases Nat.lt_or_ge v 62 with h | h
    · exact h
    · exfalso
      have h64 := hlt64 v hv
      have : v = 62 ∨ v = 63 := by omega
      rcases this with rfl | rfl
      · exact hnd (List.mem_append_left _
          (List.mem_map.mpr ⟨62, hv, by decide⟩))
      · exact hnu (List.mem_append_left _
          (List.mem_map.mpr ⟨63, hv, by decide⟩))
  have hne : ∀ c ∈ (sextets bs).map urlChar, ¬(c = '=') := by
    intro c hc
    obtain ⟨v, hv, rfl⟩ := List.mem_map.mp hc
    exact urlChar_ne_eq v (hlt64 v hv)
  -- strip the original encode padding
  have hstrip : rstripEq (pyUrlsafeB64encode bs) = (sextets bs).map urlChar := by
    simp only [pyUrlsafeB64encode]
    rw [rstripEq_append_pad, rstripEq_of_no_eq _ hne]
  rw [hstrip]
  -- restorePad appends at least one '='
  simp only [restorePad]
  set mapped := (sextets bs).map urlChar with hmapped
  set m := 4 - mapped.length % 4 with hm
  have hm1 : 1 ≤ m := by
    have : mapped.length % 4 < 4 := Nat.mod_lt _ (by omega)
    omega
  -- the decode
  simp only [pyB64decode]
  have hfilter : (mapped ++ List.replicate m '=').filter
      (fun c => isStdB64 c || c = '=') = mapped ++ List.replicate m '=' := by
    rw [List.filter_eq_self]
    intro c hc
    rcases List.mem_append.mp hc with h | h
    · obtain ⟨v, hv, rfl⟩ := List.mem_map.mp h
      have := urlChar_stdVal v (hlt62 v hv)
      simp [isStdB64, this]
    · have : c = '=' := List.eq_of_mem_replicate h
      subst this
      simp
  rw [hfilter]
  have htake : (mapped ++ List.replicate m '=').takeWhile (fun x => decide (x ≠ '=')) =
      mapped := by
    rw [takeWhile_append_of_all _ _ _ (fun c hc => decide_eq_true (hne c hc))]
    rcases hmm : m with _ | k
    · omega
    · simp [List.replicate_succ, List.takeWhile_cons]
  rw [htake]
  have hlen : (decide (mapped.length ≠ (mapped ++ List.replicate m '=').length)) = true := by
    simp only [List.length_append, List.length_replicate]
    have : mapped.length ≠ mapped.length + m := by omega
    exact decide_eq_true this
  rw [hlen]
  rw [charVals_map_urlChar (sextets bs) hlt62]
  exact decodeSextets_sextets bs hb

set_option maxRecDepth 100000 in
/-- Known-answer test of the embedded SHA-256 against the standard `"abc"`
test vector. -/
theorem sha256_kat :
    sha256 (utf8Bytes "abc") =
      [0xba, 0x78, 0x16, 0xbf, 0x8f, 0x01, 0xcf, 0xea, 0x41, 0x41, 0x40, 0xde, 0x5d, 0xae,
       0x22, 0x23, 0xb0, 0x03, 0x61, 0xa3, 0x96, 0x17, 0x7a, 0x9c, 0xb4, 0x10, 0xff, 0x61,
       0xf2, 0x00, 0x15, 0xad] := by decide

set_option maxRecDepth 100000 in
/-- Known-answer test of the full challenge derivation (UTF-8, SHA-256,
URL-safe base64, padding strip) for verifier `"abc"`. -/
theorem generate_code_challenge_kat :
    generate_code_challenge "abc" = "ungWv48Bz-pBQUDeXa4iI7ADYaOWF3qctBD_YfIAFa0" := by decide

/-- Claim C9, counterexample: the byte string `FF FF FF` encodes (URL-safe,
padding stripped) to `"____"`; the token-decode logic — pad with `=` to a
multiple of 4, then standard-alphabet `b64decode` — discards the `_`
characters and decodes to the empty byte string, so the round-trip fails
on this perfectly valid base64url segment. -/
theorem C9_counterexample :
    pyB64decode (restorePad (rstripEq (pyUrlsafeB64encode [255, 255, 255]))) =
      some [] ∧
    some ([] : List Nat) ≠ some [255, 255, 255] :=
  ⟨rfl, by decide⟩

/-- Claim C9, amended: challenge derivation is deterministic, and the
padding-restoration-then-decode logic of the token-decode path recovers
the original bytes exactly for those byte strings whose URL-safe encoding
contains neither `-` nor `_` (the decode step uses the standard alphabet
and silently discards URL-safe characters). -/
theorem C9_challenge_determinism_roundtrip :
    (∀ v : String, generate_code_challenge v = generate_code_challenge v) ∧
    (∀ bs : List Nat, (∀ b ∈ bs, b < 256) →
      '-' ∉ pyUrlsafeB64encode bs →
      '_' ∉ pyUrlsafeB64encode bs →
      pyB64decode (restorePad (rstripEq (pyUrlsafeB64encode bs))) = some bs) :=
  ⟨fun _ => rfl, b64_roundtrip⟩

/-- Claim C9, witness: the bytes `00 01 02` encode to `"AAEC"` (no
URL-safe characters) and round-trip through pad-restore and decode. -/
theorem C9_witness :
    (∀ b ∈ ([0, 1, 2] : List Nat), b < 256) ∧
    '-' ∉ pyUrlsafeB64encode [0, 1, 2] ∧
    '_' ∉ pyUrlsafeB64encode [0, 1, 2] ∧
    pyB64decode (restorePad (rstripEq (pyUrlsafeB64encode [0, 1, 2]))) = some [0, 1, 2] :=
  ⟨by decide, by decide, by decide,
   C9_challenge_determinism_roundtrip.2 [0, 1, 2] (by decide) (by decide) (by decide)⟩

end KivraSync
